import Mathlib

/-!
Shallow embedding of the recipe-django-rest-api repository's Recipe/Tag
store.  The repository ships only its migrations
(`recipe_api/migrations/0001_initial.py`, `0003_tag.py`) and its HTTP test
suite (`recipe_api/tests/test_recipe_api.py`); the models, serializers and
views they exercise are not in the source tree.  The data model below is
taken from the migrations; the store operations are modelled from the
specification's Recipe Store contract (spec §4.1), cross-checked against
the behaviour the test suite asserts.
-/

/-- Data model from migration 0001_initial (plus the `link` column added by
migration 0002 and the many-to-many `tags` relation exercised by the tests):
id is a BigAutoField primary key, user a foreign key (modelled as the
owner's numeric id), title a CharField(max_length=255), time_minutes an
IntegerField(default=1), price a DecimalField(max_digits=6,
decimal_places=2) modelled as an integer count of hundredths, description
a TextField(max_length=255), tags the list of referenced Tag ids. -/
structure Recipe where
  id : Nat
  user : Nat
  title : String
  time_minutes : Int
  price : Int
  description : String
  link : String
  tags : List Nat
deriving Repr, DecidableEq

/-- Data model from migration 0003_tag: id a BigAutoField primary key,
user a foreign key, name a CharField(max_length=255) carrying no unique
constraint. -/
structure Tag where
  id : Nat
  user : Nat
  name : String
deriving Repr, DecidableEq

/-- The backing store: the persisted Recipe and Tag rows together with the
next value of each table's auto-increment id sequence. -/
structure Store where
  recipes : List Recipe
  tags : List Tag
  nextRecipeId : Nat
  nextTagId : Nat
deriving Repr, DecidableEq

/-- Error outcomes of spec §7: NotFound surfaces as HTTP 404,
ValidationError as HTTP 400.  No distinct forbidden outcome exists. -/
inductive ApiError where
  | notFound
  | validationError
deriving Repr, DecidableEq

/-- Modelled from the spec: title is a string of 1 to 255 characters
(§3); the serializer enforcing this is absent from the source tree. -/
def validTitle (t : String) : Bool :=
  0 < t.length && t.length ≤ 255

/-- Modelled from the spec: time_minutes is an integer at least 1 (§3);
the validator is absent from the source tree (the migration shows only
IntegerField(default=1)). -/
def validTime (m : Int) : Bool :=
  1 ≤ m

/-- Price constraint from migration 0001: DecimalField(max_digits=6,
decimal_places=2).  With price held as a count of hundredths, at most six
significant digits means an absolute value of at most 999999. -/
def validPrice (c : Int) : Bool :=
  c.natAbs ≤ 999999

/-- Description constraint from migration 0001: TextField(max_length=255). -/
def validDescription (d : String) : Bool :=
  d.length ≤ 255

/-- Modelled from the spec: the create payload (§4.1).  A client may send
an owner value (it is ignored); time_minutes may be omitted (defaults
to 1); tags is the list of referenced Tag ids. -/
structure RecipeInput where
  user : Option Nat
  title : String
  time_minutes : Option Int
  price : Int
  description : String
  link : String
  tags : List Nat
deriving Repr, DecidableEq

/-- Modelled from the spec: a partial-update payload, each field wrapped
in a present/absent marker (§9 design note).  The same shape serves full
update, which additionally demands the required fields be present. -/
structure RecipePatch where
  user : Option Nat
  title : Option String
  time_minutes : Option Int
  price : Option Int
  description : Option String
  link : Option String
  tags : Option (List Nat)
deriving Repr, DecidableEq

/-- Well-formedness of a store: every persisted row's id is below the
table's auto-increment counter, and recipe ids are pairwise distinct. -/
def Store.Wf (s : Store) : Prop :=
  (∀ r ∈ s.recipes, r.id < s.nextRecipeId) ∧
  (∀ t ∈ s.tags, t.id < s.nextTagId) ∧
  (s.recipes.map Recipe.id).Nodup

instance (s : Store) : Decidable s.Wf := by
  unfold Store.Wf; infer_instance

/-- Insert a recipe into a list kept in descending id order. -/
def insertDesc (r : Recipe) : List Recipe → List Recipe
  | [] => [r]
  | x :: xs => if x.id ≤ r.id then r :: x :: xs else x :: insertDesc r xs

/-- Sort a list of recipes by descending id (the `order_by('-id')` of the
test suite's expected queryset). -/
def sortDesc : List Recipe → List Recipe
  | [] => []
  | x :: xs => insertDesc x (sortDesc xs)

/-- Modelled from the spec: `list(owner)` returns all Recipes whose owner
equals the caller, ordered by descending id, no pagination (§4.1); the
view implementing it is absent from the source tree. -/
def Store.list (s : Store) (owner : Nat) : List Recipe :=
  sortDesc (s.recipes.filter (fun r => r.user == owner))

/-- Modelled from the spec: `get(owner, id)` returns the Recipe only if it
exists and its owner matches (§4.1); the view is absent from the source
tree.  A `none` result surfaces as NotFound. -/
def Store.getR (s : Store) (owner rid : Nat) : Option Recipe :=
  s.recipes.find? (fun r => r.id == rid && r.user == owner)

/-- Modelled from the spec: `create` (§4.1).  time_minutes defaults to 1
if unspecified; field constraints are enforced before persistence; tags
are resolved by id lookup with no ownership cross-check; the owner is
forced to the authenticated caller regardless of any owner value in the
input.  On failure the store is returned untouched.  `newRecipe` is the
row a successful create persists: next auto-increment id, forced owner,
the input fields, time_minutes defaulted to 1 when absent. -/
def newRecipe (s : Store) (owner : Nat) (inp : RecipeInput) : Recipe :=
  { id := s.nextRecipeId, user := owner, title := inp.title,
    time_minutes := inp.time_minutes.getD 1, price := inp.price,
    description := inp.description, link := inp.link, tags := inp.tags }

def Store.create (s : Store) (owner : Nat) (inp : RecipeInput) :
    Except ApiError Recipe × Store :=
  if validTitle inp.title && validTime (inp.time_minutes.getD 1) &&
      validPrice inp.price && validDescription inp.description &&
      inp.tags.all (fun tid => s.tags.any (fun t => t.id == tid)) then
    (Except.ok (newRecipe s owner inp),
      { s with recipes := s.recipes ++ [newRecipe s owner inp],
               nextRecipeId := s.nextRecipeId + 1 })
  else
    (Except.error ApiError.validationError, s)

/-- Modelled from the spec: every field supplied in a patch must satisfy
its §3 constraint, and supplied tag ids must resolve to existing Tags. -/
def validPatch (s : Store) (p : RecipePatch) : Bool :=
  p.title.all validTitle && p.time_minutes.all validTime &&
  p.price.all validPrice && p.description.all validDescription &&
  p.tags.all (fun ts => ts.all (fun tid => s.tags.any (fun t => t.id == tid)))

/-- Modelled from the spec: apply a patch to a recipe, updating exactly
the supplied fields; a supplied owner value is simply not applied (§4.1). -/
def applyPatch (r : Recipe) (p : RecipePatch) : Recipe :=
  { r with
    title := p.title.getD r.title
    time_minutes := p.time_minutes.getD r.time_minutes
    price := p.price.getD r.price
    description := p.description.getD r.description
    link := p.link.getD r.link
    tags := p.tags.getD r.tags }

/-- Modelled from the spec: `update(owner, id, fields)` applies only the
fields present in the input, ignores any owner value, and fails with
NotFound under the same ownership rule as `get` (§4.1).  On failure the
store is returned untouched. -/
def Store.update (s : Store) (owner rid : Nat) (p : RecipePatch) :
    Except ApiError Recipe × Store :=
  match s.getR owner rid with
  | none => (Except.error ApiError.notFound, s)
  | some r =>
    if validPatch s p then
      (Except.ok (applyPatch r p),
        { s with recipes :=
            s.recipes.map (fun x => if x.id == rid then applyPatch r p else x) })
    else
      (Except.error ApiError.validationError, s)

/-- Modelled from the spec: the non-optional fields of a full-update
payload are title, price and description; time_minutes carries a default
and link is optional (§3, §4.1), and the test suite's PUT succeeds with no
tags in the payload. -/
def requiredPresent (p : RecipePatch) : Bool :=
  p.title.isSome && p.price.isSome && p.description.isSome

/-- Modelled from the spec: `replace(owner, id, full_fields)` follows the
same ownership and owner-immutability rules as update but requires all
non-optional fields to be present; missing required fields fail with
ValidationError (§4.1).  On failure the store is returned untouched. -/
def Store.replace (s : Store) (owner rid : Nat) (p : RecipePatch) :
    Except ApiError Recipe × Store :=
  match s.getR owner rid with
  | none => (Except.error ApiError.notFound, s)
  | some r =>
    if requiredPresent p then
      if validPatch s p then
        (Except.ok (applyPatch r p),
          { s with recipes :=
              s.recipes.map (fun x => if x.id == rid then applyPatch r p else x) })
      else
        (Except.error ApiError.validationError, s)
    else
      (Except.error ApiError.validationError, s)

/-- Modelled from the spec: `delete(owner, id)` removes the Recipe if
owned by the caller, otherwise NotFound (§4.1).  On failure the store is
returned untouched. -/
def Store.delete (s : Store) (owner rid : Nat) : Except ApiError Unit × Store :=
  match s.getR owner rid with
  | none => (Except.error ApiError.notFound, s)
  | some _ => (Except.ok (), { s with recipes := s.recipes.filter (fun x => x.id != rid) })

/-- Tag creation as the test helper `create_tag` performs it
(`Tag.objects.create`): a fresh auto-increment id is assigned and the row
is inserted; migration 0003 places no uniqueness constraint on name. -/
def newTag (s : Store) (owner : Nat) (nm : String) : Tag :=
  { id := s.nextTagId, user := owner, name := nm }

def Store.createTag (s : Store) (owner : Nat) (nm : String) : Tag × Store :=
  (newTag s owner nm,
    { s with tags := s.tags ++ [newTag s owner nm], nextTagId := s.nextTagId + 1 })

/-! Helper lemmas about the descending-id sort and the id lookup. -/

theorem mem_insertDesc {r x : Recipe} {l : List Recipe} :
    x ∈ insertDesc r l ↔ x = r ∨ x ∈ l := by
  induction l with
  | nil => simp [insertDesc]
  | cons y ys ih =>
    simp only [insertDesc]
    split
    · simp [List.mem_cons]
    · simp only [List.mem_cons, ih]
      tauto

theorem mem_sortDesc {x : Recipe} {l : List Recipe} :
    x ∈ sortDesc l ↔ x ∈ l := by
  induction l with
  | nil => simp [sortDesc]
  | cons y ys ih =>
    simp only [sortDesc, mem_insertDesc, List.mem_cons, ih]

theorem pairwise_insertDesc {r : Recipe} {l : List Recipe}
    (h : l.Pairwise (fun a b => b.id ≤ a.id)) :
    (insertDesc r l).Pairwise (fun a b => b.id ≤ a.id) := by
  induction l with
  | nil => simp [insertDesc]
  | cons y ys ih =>
    rw [List.pairwise_cons] at h
    simp only [insertDesc]
    split
    · rename_i hle
      refine List.pairwise_cons.mpr ⟨?_, List.pairwise_cons.mpr h⟩
      intro z hz
      rcases List.mem_cons.mp hz with rfl | hz
      · exact hle
      · exact le_trans (h.1 z hz) hle
    · rename_i hgt
      refine List.pairwise_cons.mpr ⟨?_, ih h.2⟩
      intro z hz
      rcases mem_insertDesc.mp hz with rfl | hz
      · exact Nat.le_of_lt (Nat.lt_of_not_le hgt)
      · exact h.1 z hz

theorem pairwise_sortDesc (l : List Recipe) :
    (sortDesc l).Pairwise (fun a b => b.id ≤ a.id) := by
  induction l with
  | nil => simp [sortDesc]
  | cons y ys ih => exact pairwise_insertDesc ih

theorem sortDesc_append_max {r : Recipe} {l : List Recipe}
    (h : ∀ x ∈ l, x.id < r.id) :
    sortDesc (l ++ [r]) = r :: sortDesc l := by
  induction l with
  | nil => rfl
  | cons y ys ih =>
    have hy : y.id < r.id := h y (List.mem_cons_self y ys)
    show insertDesc y (sortDesc (ys ++ [r])) = r :: insertDesc y (sortDesc ys)
    rw [ih (fun x hx => h x (List.mem_cons_of_mem y hx))]
    simp only [insertDesc]
    rw [if_neg (by omega)]

theorem recipe_eq_of_id_eq {l : List Recipe} (h : (l.map Recipe.id).Nodup)
    {x y : Recipe} (hx : x ∈ l) (hy : y ∈ l) (hid : x.id = y.id) : x = y :=
  List.inj_on_of_nodup_map h hx hy hid

/-- Destructuring of a successful create: the returned recipe carries the
next auto-increment id, the forced owner and the input fields, and the new
store appends it while bumping the id sequence. -/
theorem create_ok_elim {s : Store} {owner : Nat} {inp : RecipeInput}
    {r : Recipe} {s2 : Store}
    (hc : s.create owner inp = (Except.ok r, s2)) :
    r.id = s.nextRecipeId ∧ r.user = owner ∧ r.title = inp.title ∧
    r.time_minutes = inp.time_minutes.getD 1 ∧ r.price = inp.price ∧
    r.description = inp.description ∧ r.link = inp.link ∧ r.tags = inp.tags ∧
    s2.recipes = s.recipes ++ [r] ∧ s2.nextRecipeId = s.nextRecipeId + 1 ∧
    s2.tags = s.tags ∧ s2.nextTagId = s.nextTagId := by
  unfold Store.create at hc
  split at hc
  · rw [Prod.mk.injEq] at hc
    obtain ⟨h1, h2⟩ := hc
    rw [Except.ok.injEq] at h1
    subst h1
    subst h2
    exact ⟨rfl, rfl, rfl, rfl, rfl, rfl, rfl, rfl, rfl, rfl, rfl, rfl⟩
  · rw [Prod.mk.injEq] at hc
    exact absurd hc.1 (by simp)

/-- Shared concrete fixtures for witnesses, mirroring the test suite's
`create_recipe` helper payload. -/
def emptyStore : Store :=
  { recipes := [], tags := [], nextRecipeId := 1, nextTagId := 1 }

def sampleInput : RecipeInput :=
  { user := none, title := "Sample title", time_minutes := some 4, price := 150,
    description := "Sample description", link := "https://example.com/recipe.pdf",
    tags := [] }

def sampleRecipe : Recipe :=
  { id := 1, user := 1, title := "Sample title", time_minutes := 4, price := 150,
    description := "Sample description", link := "https://example.com/recipe.pdf",
    tags := [] }

def sampleStore : Store :=
  { recipes := [sampleRecipe], tags := [], nextRecipeId := 2, nextTagId := 1 }

def emptyPatch : RecipePatch :=
  { user := none, title := none, time_minutes := none, price := none,
    description := none, link := none, tags := none }

/-- C1: for distinct owners A and B, a Recipe created by A is absent from
B's list, and B's get, update and delete on its id all report NotFound
(never a distinct forbidden outcome), leaving the store untouched. -/
theorem created_recipe_invisible_to_others
    (s : Store) (hwf : s.Wf) (A B : Nat) (hAB : A ≠ B)
    (inp : RecipeInput) (r : Recipe) (s2 : Store)
    (hc : s.create A inp = (Except.ok r, s2)) (p : RecipePatch) :
    r ∉ s2.list B ∧ s2.getR B r.id = none ∧
    s2.update B r.id p = (Except.error ApiError.notFound, s2) ∧
    s2.delete B r.id = (Except.error ApiError.notFound, s2) := by
  obtain ⟨hid, huser, -, -, -, -, -, -, hrec, -, -, -⟩ := create_ok_elim hc
  have hBr : (r.user == B) = false := by
    rw [huser]; exact beq_false_of_ne hAB
  have hget : s2.getR B r.id = none := by
    rw [Store.getR, hrec, List.find?_append]
    have h1 : s.recipes.find? (fun x => x.id == r.id && x.user == B) = none := by
      rw [List.find?_eq_none]
      intro x hx hpx
      rw [Bool.and_eq_true] at hpx
      have hxid : x.id = r.id := eq_of_beq hpx.1
      have := hwf.1 x hx
      omega
    have h2 : List.find? (fun x => x.id == r.id && x.user == B) [r] = none := by
      simp [List.find?, hBr]
    rw [h1, h2]
    rfl
  refine ⟨?_, hget, ?_, ?_⟩
  · intro hmem
    rw [Store.list, mem_sortDesc, List.mem_filter] at hmem
    rw [hmem.2] at hBr
    exact Bool.noConfusion hBr
  · rw [Store.update, hget]
  · rw [Store.delete, hget]

/-- Witness for C1 at the test suite's sample payload: owner 1 creates a
recipe in the empty store; owner 2 cannot see or touch it. -/
theorem created_recipe_invisible_to_others_witness :
    sampleRecipe ∉ sampleStore.list 2 ∧ sampleStore.getR 2 sampleRecipe.id = none ∧
    sampleStore.update 2 sampleRecipe.id emptyPatch =
      (Except.error ApiError.notFound, sampleStore) ∧
    sampleStore.delete 2 sampleRecipe.id =
      (Except.error ApiError.notFound, sampleStore) :=
  created_recipe_invisible_to_others emptyStore (by decide) 1 2 (by decide)
    sampleInput sampleRecipe sampleStore (by rfl) emptyPatch

/-- A found, valid patch makes update succeed with the patched recipe. -/
theorem update_ok_of {s : Store} {owner rid : Nat} {p : RecipePatch} {r : Recipe}
    (hg : s.getR owner rid = some r) (hv : validPatch s p = true) :
    s.update owner rid p =
      (Except.ok (applyPatch r p),
       { s with recipes :=
           s.recipes.map (fun x => if x.id == rid then applyPatch r p else x) }) := by
  rw [Store.update, hg]
  exact if_pos hv

/-- A found, valid, required-complete patch makes replace succeed. -/
theorem replace_ok_of {s : Store} {owner rid : Nat} {p : RecipePatch} {r : Recipe}
    (hg : s.getR owner rid = some r) (hreq : requiredPresent p = true)
    (hv : validPatch s p = true) :
    s.replace owner rid p =
      (Except.ok (applyPatch r p),
       { s with recipes :=
           s.recipes.map (fun x => if x.id == rid then applyPatch r p else x) }) := by
  rw [Store.replace, hg]
  exact (if_pos hreq).trans (if_pos hv)

/-- C2: an update or replace payload carrying any owner/user value is not
rejected on that account — the field is silently ignored (both operations
return, for every payload, exactly what they return without it) and on
success the Recipe's owner after the operation equals its owner before;
for replace, success additionally needs the required fields present. -/
theorem owner_field_ignored_and_unchanged
    (s : Store) (owner rid u : Nat) (p : RecipePatch) (r : Recipe)
    (hg : s.getR owner rid = some r) (hv : validPatch s p = true) :
    (∀ q : Option Nat,
      s.update owner rid { p with user := q } = s.update owner rid p ∧
      s.replace owner rid { p with user := q } = s.replace owner rid p) ∧
    (∃ r2, (s.update owner rid { p with user := some u }).1 = Except.ok r2 ∧
      r2.user = r.user) ∧
    (requiredPresent p = true →
      ∃ r2, (s.replace owner rid { p with user := some u }).1 = Except.ok r2 ∧
        r2.user = r.user) := by
  have hirr : ∀ q : Option Nat,
      s.update owner rid { p with user := q } = s.update owner rid p ∧
      s.replace owner rid { p with user := q } = s.replace owner rid p := by
    intro q
    constructor
    · unfold Store.update
      cases s.getR owner rid <;> rfl
    · unfold Store.replace
      cases s.getR owner rid <;> rfl
  refine ⟨hirr, ?_, ?_⟩
  · refine ⟨applyPatch r p, ?_, rfl⟩
    rw [(hirr (some u)).1, update_ok_of hg hv]
  · intro hreq
    refine ⟨applyPatch r p, ?_, rfl⟩
    rw [(hirr (some u)).2, replace_ok_of hg hreq hv]

/-- Patch used by witnesses: the test suite's PATCH payload
(title="New title", time_minutes=120). -/
def patch1 : RecipePatch :=
  { user := none, title := some "New title", time_minutes := some 120,
    price := none, description := none, link := none, tags := none }

/-- Full-update payload mirroring the test suite's PUT payload. -/
def fullPatch : RecipePatch :=
  { user := none, title := some "New title", time_minutes := some 133,
    price := some 100, description := some "New description",
    link := some "https://newlink.com", tags := none }

/-- Witness for C2: on the sample store, the test suite's user-only PATCH
payload (user=2 and nothing else) succeeds with the owner still user 1,
and a PUT payload trying to set user 2 likewise succeeds with the owner
unchanged. -/
theorem owner_field_ignored_and_unchanged_witness :
    (∃ r2, (sampleStore.update 1 1 { emptyPatch with user := some 2 }).1 =
      Except.ok r2 ∧ r2.user = sampleRecipe.user) ∧
    (∃ r2, (sampleStore.replace 1 1 { fullPatch with user := some 2 }).1 =
      Except.ok r2 ∧ r2.user = sampleRecipe.user) :=
  ⟨(owner_field_ignored_and_unchanged sampleStore 1 1 2 emptyPatch sampleRecipe
      (by rfl) (by rfl)).2.1,
   (owner_field_ignored_and_unchanged sampleStore 1 1 2 fullPatch sampleRecipe
      (by rfl) (by rfl)).2.2 rfl⟩

/-- C3: a partial update changes exactly the fields present in the input:
every supplied field takes the supplied value and every absent field (and
the id and owner, which no payload can carry) keeps its prior value. -/
theorem update_applies_exactly_supplied_fields
    (s : Store) (owner rid : Nat) (p : RecipePatch) (r r2 : Recipe) (s2 : Store)
    (hg : s.getR owner rid = some r)
    (hu : s.update owner rid p = (Except.ok r2, s2)) :
    (p.title = none → r2.title = r.title) ∧
    (∀ v, p.title = some v → r2.title = v) ∧
    (p.time_minutes = none → r2.time_minutes = r.time_minutes) ∧
    (∀ v, p.time_minutes = some v → r2.time_minutes = v) ∧
    (p.price = none → r2.price = r.price) ∧
    (∀ v, p.price = some v → r2.price = v) ∧
    (p.description = none → r2.description = r.description) ∧
    (∀ v, p.description = some v → r2.description = v) ∧
    (p.link = none → r2.link = r.link) ∧
    (∀ v, p.link = some v → r2.link = v) ∧
    (p.tags = none → r2.tags = r.tags) ∧
    (∀ v, p.tags = some v → r2.tags = v) ∧
    r2.user = r.user ∧ r2.id = r.id := by
  rw [Store.update, hg] at hu
  split at hu
  · rename_i heq
    exact Option.noConfusion heq
  · rename_i rr heq
    injection heq with h
    subst h
    split at hu
    · rw [Prod.mk.injEq] at hu
      obtain ⟨ha, -⟩ := hu
      rw [Except.ok.injEq] at ha
      subst ha
      exact ⟨fun h => by simp [applyPatch, h], fun v h => by simp [applyPatch, h],
        fun h => by simp [applyPatch, h], fun v h => by simp [applyPatch, h],
        fun h => by simp [applyPatch, h], fun v h => by simp [applyPatch, h],
        fun h => by simp [applyPatch, h], fun v h => by simp [applyPatch, h],
        fun h => by simp [applyPatch, h], fun v h => by simp [applyPatch, h],
        fun h => by simp [applyPatch, h], fun v h => by simp [applyPatch, h],
        rfl, rfl⟩
    · rw [Prod.mk.injEq] at hu
      exact absurd hu.1 (by simp)

/-- The recipe and store produced by patching the sample store with the
test suite's PATCH payload. -/
def patchedRecipe : Recipe :=
  { id := 1, user := 1, title := "New title", time_minutes := 120, price := 150,
    description := "Sample description", link := "https://example.com/recipe.pdf",
    tags := [] }

def patchedStore : Store :=
  { recipes := [patchedRecipe], tags := [], nextRecipeId := 2, nextTagId := 1 }

/-- Witness for C3: patching only title and time_minutes on the sample
recipe sets the title and keeps the description. -/
theorem update_applies_exactly_supplied_fields_witness :
    patchedRecipe.title = "New title" ∧
    patchedRecipe.description = sampleRecipe.description := by
  have h := update_applies_exactly_supplied_fields sampleStore 1 1 patch1
    sampleRecipe patchedRecipe patchedStore (by rfl) (by rfl)
  exact ⟨h.2.1 "New title" rfl, h.2.2.2.2.2.2.1 rfl⟩

/-- C4: `list(owner)` returns exactly the stored Recipes whose owner
equals the caller (all of them — no pagination), in descending id order;
and a freshly created Recipe heads its owner's next list, so descending
id order is most-recently-created-first order. -/
theorem list_exactly_owned_desc (s : Store) (owner : Nat) :
    (∀ r : Recipe, r ∈ s.list owner ↔ (r ∈ s.recipes ∧ r.user = owner)) ∧
    (s.list owner).Pairwise (fun a b => b.id ≤ a.id) ∧
    (∀ (inp : RecipeInput) (r : Recipe) (s2 : Store), s.Wf →
      s.create owner inp = (Except.ok r, s2) →
      s2.list owner = r :: s.list owner) := by
  refine ⟨?_, pairwise_sortDesc _, ?_⟩
  · intro r
    rw [Store.list, mem_sortDesc, List.mem_filter]
    simp
  · intro inp r s2 hwf hc
    obtain ⟨hid, huser, -, -, -, -, -, -, hrec, -, -, -⟩ := create_ok_elim hc
    rw [Store.list, Store.list, hrec, List.filter_append]
    have hf : List.filter (fun x => x.user == owner) [r] = [r] := by
      simp [List.filter_cons, huser]
    rw [hf]
    apply sortDesc_append_max
    intro x hx
    rw [List.mem_filter] at hx
    have := hwf.1 x hx.1
    omega

/-- Witness for C4: creating the sample recipe in the empty store puts it
at the head of owner 1's list. -/
theorem list_exactly_owned_desc_witness :
    sampleStore.list 1 = sampleRecipe :: emptyStore.list 1 :=
  (list_exactly_owned_desc emptyStore 1).2.2 sampleInput sampleRecipe sampleStore
    (by decide) (by rfl)

/-- C5: round-trip — a successful create followed by get of the new id
returns the created Recipe, whose fields equal the input fields (with
time_minutes defaulted to 1 when unspecified), whose owner is the
authenticated caller, and whose outcome is independent of any owner value
carried in the input. -/
theorem create_get_roundtrip
    (s : Store) (owner : Nat) (inp : RecipeInput) (r : Recipe) (s2 : Store)
    (hwf : s.Wf) (hc : s.create owner inp = (Except.ok r, s2)) :
    s2.getR owner r.id = some r ∧ r.user = owner ∧ r.title = inp.title ∧
    r.time_minutes = inp.time_minutes.getD 1 ∧ r.price = inp.price ∧
    r.description = inp.description ∧ r.link = inp.link ∧ r.tags = inp.tags ∧
    (∀ q : Option Nat, s.create owner { inp with user := q } = s.create owner inp) := by
  obtain ⟨hid, huser, ht, htm, hp, hd, hl, htags, hrec, -, -, -⟩ := create_ok_elim hc
  refine ⟨?_, huser, ht, htm, hp, hd, hl, htags, fun q => rfl⟩
  rw [Store.getR, hrec, List.find?_append]
  have h1 : s.recipes.find? (fun x => x.id == r.id && x.user == owner) = none := by
    rw [List.find?_eq_none]
    intro x hx hpx
    rw [Bool.and_eq_true] at hpx
    have hxid : x.id = r.id := eq_of_beq hpx.1
    have := hwf.1 x hx
    omega
  have h2 : List.find? (fun x => x.id == r.id && x.user == owner) [r] = some r := by
    simp [List.find?, huser]
  rw [h1, h2]
  rfl

/-- Witness for C5: the sample create in the empty store round-trips. -/
theorem create_get_roundtrip_witness :
    sampleStore.getR 1 sampleRecipe.id = some sampleRecipe :=
  (create_get_roundtrip emptyStore 1 sampleInput sampleRecipe sampleStore
    (by decide) (by rfl)).1

/-- A 300-character title, violating the CharField(max_length=255) bound. -/
def longTitle : String := String.mk (List.replicate 300 'a')

/-- A full-update payload that supplies every required field but an
over-long title. -/
def badPatch : RecipePatch :=
  { user := none, title := some longTitle, time_minutes := some 4,
    price := some 150, description := some "New description",
    link := none, tags := none }

set_option maxRecDepth 8000 in
/-- C6 counterexample: recipe 1 of the sample store is owned by caller 1
and `badPatch` supplies every required field (title, price, description),
yet replace returns ValidationError rather than succeeding, because the
supplied title has 300 characters.  Presence of all required fields does
not by itself make replace succeed, refuting the claim as stated. -/
theorem replace_present_but_invalid_fails :
    sampleStore.getR 1 1 = some sampleRecipe ∧
    requiredPresent badPatch = true ∧
    sampleStore.replace 1 1 badPatch =
      (Except.error ApiError.validationError, sampleStore) :=
  ⟨rfl, rfl, rfl⟩

/-- C6 (amended): for a Recipe owned by the caller, replace fails with
ValidationError when a required field (title, price or description) is
omitted, and succeeds when all required fields are present and every
supplied value satisfies its field constraint. -/
theorem replace_requires_all_required_fields
    (s : Store) (owner rid : Nat) (p : RecipePatch) (r : Recipe)
    (hg : s.getR owner rid = some r) :
    (requiredPresent p = false →
      s.replace owner rid p = (Except.error ApiError.validationError, s)) ∧
    (requiredPresent p = true → validPatch s p = true →
      ∃ r2 s2, s.replace owner rid p = (Except.ok r2, s2)) := by
  constructor
  · intro hreq
    rw [Store.replace, hg]
    exact if_neg (by simp [hreq])
  · intro hreq hv
    exact ⟨applyPatch r p, _, replace_ok_of hg hreq hv⟩

/-- A full-update payload with the required description omitted. -/
def missingPatch : RecipePatch :=
  { user := none, title := some "New title", time_minutes := some 133,
    price := some 100, description := none, link := none, tags := none }

/-- Witness for C6 (amended): omitting description from a PUT on the
sample recipe yields ValidationError; the complete test-suite PUT payload
succeeds. -/
theorem replace_requires_all_required_fields_witness :
    sampleStore.replace 1 1 missingPatch =
      (Except.error ApiError.validationError, sampleStore) ∧
    (∃ r2 s2, sampleStore.replace 1 1 fullPatch = (Except.ok r2, s2)) :=
  ⟨(replace_requires_all_required_fields sampleStore 1 1 missingPatch
      sampleRecipe (by rfl)).1 rfl,
   (replace_requires_all_required_fields sampleStore 1 1 fullPatch
      sampleRecipe (by rfl)).2 rfl rfl⟩

/-- C7: create rejects — leaving the store untouched, so nothing is
persisted — any input whose title is empty or over 255 characters, whose
time_minutes is below 1, whose price exceeds six digits of hundredths, or
whose description is over 255 characters; and when time_minutes is
unspecified the created recipe gets the default 1. -/
theorem create_validates_fields (s : Store) (owner : Nat) (inp : RecipeInput) :
    ((validTitle inp.title = false ∨ validTime (inp.time_minutes.getD 1) = false ∨
      validPrice inp.price = false ∨ validDescription inp.description = false) →
      s.create owner inp = (Except.error ApiError.validationError, s)) ∧
    (inp.time_minutes = none →
      ∀ r s2, s.create owner inp = (Except.ok r, s2) → r.time_minutes = 1) := by
  constructor
  · intro hbad
    rw [Store.create]
    apply if_neg
    intro hcond
    rw [Bool.and_eq_true, Bool.and_eq_true, Bool.and_eq_true, Bool.and_eq_true]
      at hcond
    rcases hbad with h | h | h | h <;> rw [h] at hcond <;> simp at hcond
  · intro hnone r s2 hc
    have h := (create_ok_elim hc).2.2.2.1
    rw [h, hnone]
    rfl

/-- An input with an empty title (violating the 1-to-255-character
constraint) and an input omitting time_minutes. -/
def invalidInput : RecipeInput :=
  { user := none, title := "", time_minutes := some 4, price := 150,
    description := "Sample description", link := "", tags := [] }

def noTimeInput : RecipeInput :=
  { user := none, title := "Sample title", time_minutes := none, price := 150,
    description := "Sample description", link := "", tags := [] }

def noTimeRecipe : Recipe :=
  { id := 1, user := 1, title := "Sample title", time_minutes := 1, price := 150,
    description := "Sample description", link := "", tags := [] }

def noTimeStore : Store :=
  { recipes := [noTimeRecipe], tags := [], nextRecipeId := 2, nextTagId := 1 }

/-- Witness for C7: an empty title is rejected with nothing persisted, and
a create without time_minutes yields a recipe with time_minutes 1. -/
theorem create_validates_fields_witness :
    emptyStore.create 1 invalidInput =
      (Except.error ApiError.validationError, emptyStore) ∧
    noTimeRecipe.time_minutes = 1 :=
  ⟨(create_validates_fields emptyStore 1 invalidInput).1 (Or.inl rfl),
   (create_validates_fields emptyStore 1 noTimeInput).2 rfl noTimeRecipe
     noTimeStore (by rfl)⟩

/-- C8: operations that fail leave the store untouched: whenever create,
update, replace or delete returns an error, the store it returns is the
prior store; in particular a non-owner's update or delete on an existing
Recipe reports NotFound and the Recipe remains present, every field
unchanged. -/
theorem failed_operations_leave_store_untouched
    (s : Store) (owner rid A : Nat) (p : RecipePatch) (inp : RecipeInput)
    (e : ApiError) :
    ((s.create owner inp).1 = Except.error e → (s.create owner inp).2 = s) ∧
    ((s.update owner rid p).1 = Except.error e → (s.update owner rid p).2 = s) ∧
    ((s.replace owner rid p).1 = Except.error e → (s.replace owner rid p).2 = s) ∧
    ((s.delete owner rid).1 = Except.error e → (s.delete owner rid).2 = s) ∧
    (∀ r : Recipe, s.Wf → s.getR A rid = some r → A ≠ owner →
      s.update owner rid p = (Except.error ApiError.notFound, s) ∧
      s.delete owner rid = (Except.error ApiError.notFound, s)) := by
  refine ⟨?_, ?_, ?_, ?_, ?_⟩
  · rw [Store.create]
    split
    · intro h; exact absurd h (by simp)
    · intro h; rfl
  · rw [Store.update]
    split
    · intro h; rfl
    · split
      · intro h; exact absurd h (by simp)
      · intro h; rfl
  · rw [Store.replace]
    split
    · intro h; rfl
    · split
      · split
        · intro h; exact absurd h (by simp)
        · intro h; rfl
      · intro h; rfl
  · rw [Store.delete]
    split
    · intro h; rfl
    · intro h; exact absurd h (by simp)
  · intro r hwf hgA hAo
    rw [Store.getR] at hgA
    have hrp := List.find?_some hgA
    have hrmem := List.mem_of_find?_eq_some hgA
    rw [Bool.and_eq_true] at hrp
    have hrid : r.id = rid := eq_of_beq hrp.1
    have hru : r.user = A := eq_of_beq hrp.2
    have hgnone : s.getR owner rid = none := by
      rw [Store.getR, List.find?_eq_none]
      intro x hx hpx
      rw [Bool.and_eq_true] at hpx
      have hxid : x.id = rid := eq_of_beq hpx.1
      have hxu : x.user = owner := eq_of_beq hpx.2
      have hxr : x = r := recipe_eq_of_id_eq hwf.2.2 hx hrmem (by rw [hxid, hrid])
      rw [hxr, hru] at hxu
      exact hAo hxu
    exact ⟨by rw [Store.update, hgnone], by rw [Store.delete, hgnone]⟩

/-- Witness for C8: user 2's PATCH and DELETE on user 1's sample recipe
both report NotFound and return the store unchanged. -/
theorem failed_operations_leave_store_untouched_witness :
    sampleStore.update 2 1 patch1 = (Except.error ApiError.notFound, sampleStore) ∧
    sampleStore.delete 2 1 = (Except.error ApiError.notFound, sampleStore) :=
  (failed_operations_leave_store_untouched sampleStore 2 1 1 patch1 sampleInput
    ApiError.notFound).2.2.2.2 sampleRecipe (by decide) (by rfl) (by decide)

/-- C9: create resolves tag ids by an existence lookup that never checks
the Tags' owner, and the created Recipe's tag list equals the input's tag
id list in the given order. -/
theorem create_resolves_tags_in_order
    (s : Store) (owner : Nat) (inp : RecipeInput)
    (hT : validTitle inp.title = true)
    (hM : validTime (inp.time_minutes.getD 1) = true)
    (hP : validPrice inp.price = true)
    (hD : validDescription inp.description = true)
    (htags : ∀ tid ∈ inp.tags, ∃ t ∈ s.tags, t.id = tid) :
    ∃ s2, s.create owner inp = (Except.ok (newRecipe s owner inp), s2) ∧
      (newRecipe s owner inp).tags = inp.tags := by
  have hcond : (validTitle inp.title && validTime (inp.time_minutes.getD 1) &&
      validPrice inp.price && validDescription inp.description &&
      inp.tags.all (fun tid => s.tags.any (fun t => t.id == tid))) = true := by
    rw [Bool.and_eq_true, Bool.and_eq_true, Bool.and_eq_true, Bool.and_eq_true]
    refine ⟨⟨⟨⟨hT, hM⟩, hP⟩, hD⟩, ?_⟩
    rw [List.all_eq_true]
    intro tid htid
    rw [List.any_eq_true]
    obtain ⟨t, ht, hteq⟩ := htags tid htid
    exact ⟨t, ht, by rw [hteq]; exact beq_self_eq_true tid⟩
  rw [Store.create, if_pos hcond]
  exact ⟨_, rfl, rfl⟩

/-- A store holding two Tags owned by user 2, and a create payload by
user 1 referencing them — the cross-owner attachment of the test
scenario. -/
def tagStore : Store :=
  { recipes := [], tags := [⟨1, 2, "tag1"⟩, ⟨2, 2, "tag2"⟩],
    nextRecipeId := 1, nextTagId := 3 }

def tagInput : RecipeInput :=
  { user := none, title := "Sample title", time_minutes := some 3, price := 150,
    description := "Sample description", link := "https://example.com",
    tags := [1, 2] }

/-- Witness for C9: user 1 creates a recipe referencing user 2's tags 1
and 2; the create succeeds and the recipe's tags are [1, 2] in order. -/
theorem create_resolves_tags_in_order_witness :
    ∃ s2, tagStore.create 1 tagInput =
        (Except.ok (newRecipe tagStore 1 tagInput), s2) ∧
      (newRecipe tagStore 1 tagInput).tags = tagInput.tags :=
  create_resolves_tags_in_order tagStore 1 tagInput rfl rfl rfl rfl (by decide)

/-- C10: Tag names carry no uniqueness constraint: creating two Tags with
the same name for the same owner succeeds twice and persists two distinct
records with distinct ids, both bearing that name. -/
theorem tag_names_not_unique (s : Store) (owner : Nat) (nm : String) :
    (s.createTag owner nm).1.name = nm ∧
    (((s.createTag owner nm).2).createTag owner nm).1.name = nm ∧
    (s.createTag owner nm).1.id ≠
      (((s.createTag owner nm).2).createTag owner nm).1.id ∧
    (s.createTag owner nm).1 ∈
      ((((s.createTag owner nm).2).createTag owner nm).2).tags ∧
    (((s.createTag owner nm).2).createTag owner nm).1 ∈
      ((((s.createTag owner nm).2).createTag owner nm).2).tags := by
  refine ⟨rfl, rfl, ?_, ?_, ?_⟩
  · show s.nextTagId ≠ s.nextTagId + 1
    omega
  · simp [Store.createTag, newTag]
  · simp [Store.createTag, newTag]

/-- Witness for C10 at a concrete store: two tags named Tag1 for owner 1
in the empty store get ids 1 and 2. -/
theorem tag_names_not_unique_witness :
    (emptyStore.createTag 1 "Tag1").1.name = "Tag1" ∧
    (((emptyStore.createTag 1 "Tag1").2).createTag 1 "Tag1").1.name = "Tag1" ∧
    (emptyStore.createTag 1 "Tag1").1.id ≠
      (((emptyStore.createTag 1 "Tag1").2).createTag 1 "Tag1").1.id ∧
    (emptyStore.createTag 1 "Tag1").1 ∈
      ((((emptyStore.createTag 1 "Tag1").2).createTag 1 "Tag1").2).tags ∧
    (((emptyStore.createTag 1 "Tag1").2).createTag 1 "Tag1").1 ∈
      ((((emptyStore.createTag 1 "Tag1").2).createTag 1 "Tag1").2).tags :=
  tag_names_not_unique emptyStore 1 "Tag1"
